import Mathlib

/-!
# NarumateAI — verification of the mood statistics, streaks, titles and chat fallback

A shallow embedding of the pure logic of the NarumateAI repository:

* the mood statistics engine (`moodService.getMoodStats` in `src/lib/moodService.ts`),
* the day-streak computation (`getStreakCount` in `src/components/MoodDashboard.tsx`),
* the conversation-title derivation (`saveMessageToDb` in `src/components/ChatInterface.tsx`),
* the per-turn routing of `sendMessage` (same file), and
* the canned fallback responses (`generateFallbackResponse` in `src/lib/huggingface.ts`).

Conventions of the embedding:

* JavaScript numbers are embedded as `ℚ` (all values reached here are exact in
  double precision: small integers, their sums, and one division whose rounding
  is modelled by `jsRound` below);
* calendar dates (the `date` column, a `YYYY-MM-DD` string) are embedded as `ℤ`
  day numbers, so `Math.floor((d1.getTime() - d2.getTime()) / 86400000)` on two
  whole dates is exact integer subtraction;
* a JavaScript object used as a string-keyed counter is embedded as an
  association list in key-insertion order, which is the order `Object.entries`
  yields for such keys;
* `Array.prototype.sort`, stable per the language specification, is embedded as
  a stable insertion sort on the comparator's key;
* `Math.floor(Math.random() * arr.length)` is an arbitrary index below
  `arr.length`; the draw is embedded as a `pick : ℕ` parameter reduced
  modulo `arr.length`.
-/

/-- `Math.round`: round half up, `⌊x + 1/2⌋`. -/
def jsRound (x : ℚ) : ℤ := ⌊x + 1 / 2⌋

/-- `needle.every prefix-of hay`: does `hay` start with `needle`?
(`List Char` stands for a JavaScript string.) -/
def leadsWith : List Char → List Char → Bool
  | [], _ => true
  | _ :: _, [] => false
  | n :: ns, h :: hs => n == h && leadsWith ns hs

/-- `String.prototype.includes(needle)` on `hay`, both as char lists. -/
def hasSubstr : List Char → List Char → Bool
  | [], needle => needle.isEmpty
  | c :: rest, needle => leadsWith needle (c :: rest) || hasSubstr rest needle

/-- `s.includes(kw)` for Lean strings. -/
def includes (s kw : String) : Bool := hasSubstr s.toList kw.toList

/-- `s.toLowerCase()`: lowercase every character. -/
def jsToLower (s : String) : String := ⟨s.data.map Char.toLower⟩

/-- `s.trim()`: strip whitespace from both ends. -/
def jsTrim (s : String) : String :=
  ⟨((s.data.dropWhile Char.isWhitespace).reverse.dropWhile Char.isWhitespace).reverse⟩

/-- A row of the `mood_entries` table, the fields the dashboard logic reads. -/
structure MoodEntry where
  mood_type : String
  intensity : ℚ
  date : ℤ
deriving DecidableEq

/-- The `MoodStats` record returned by `moodService.getMoodStats`.
`moodDistribution` keeps the key-insertion order of the JavaScript object. -/
structure MoodStats where
  totalEntries : ℕ
  averageIntensity : ℚ
  mostCommonMood : String
  moodDistribution : List (String × ℕ)
  weeklyTrend : List (ℤ × String × ℚ)
deriving DecidableEq

/-- One step of `moodDistribution[m] = (moodDistribution[m] || 0) + 1` on the
object-as-association-list: an existing key is bumped in place, a new key is
appended (JavaScript string-key insertion order). -/
def bump : List (String × ℕ) → String → List (String × ℕ)
  | [], m => [(m, 1)]
  | (k, c) :: rest, m => if k = m then (k, c + 1) :: rest else (k, c) :: bump rest m

/-- The `moodDistribution` object built by `entries.forEach` in `getMoodStats`,
over the list of primary moods. -/
def moodDistribution (moods : List String) : List (String × ℕ) :=
  moods.foldl bump []

/-- Stable insert for a descending sort keyed by `f`: the inserted element goes
in front of the first element whose key is not larger, so elements equal under
the comparator keep their original relative order. -/
def insertDescBy (f : α → ℤ) (x : α) : List α → List α
  | [] => [x]
  | y :: ys => if f y ≤ f x then x :: y :: ys else y :: insertDescBy f x ys

/-- `arr.sort((a, b) => f(b) - f(a))`: a stable descending sort by key `f`,
as the language specification requires of `Array.prototype.sort`. -/
def sortDescBy (f : α → ℤ) : List α → List α
  | [] => []
  | x :: xs => insertDescBy f x (sortDescBy f xs)

/-- `moodService.getMoodStats`, its pure tail: the statistics computed from the
entries the date-range query returned (most recent first, as the query orders
by `created_at` descending). -/
def getMoodStats (entries : List MoodEntry) : MoodStats :=
  if entries.length = 0 then
    { totalEntries := 0, averageIntensity := 0, mostCommonMood := "",
      moodDistribution := [], weeklyTrend := [] }
  else
    let totalEntries := entries.length
    let averageIntensity := (entries.map (·.intensity)).sum / totalEntries
    let dist := moodDistribution (entries.map (·.mood_type))
    let mostCommonMood :=
      match (sortDescBy (fun p => (p.2 : ℤ)) dist).head? with
      | some p => p.1
      | none => ""
    let weeklyTrend := (entries.take 7).map (fun e => (e.date, e.mood_type, e.intensity))
    { totalEntries := totalEntries,
      averageIntensity := (jsRound (averageIntensity * 10) : ℚ) / 10,
      mostCommonMood := mostCommonMood,
      weeklyTrend := weeklyTrend,
      moodDistribution := dist }

/-- The `for (const entry of sortedEntries)` loop of `getStreakCount`: walk the
dates in descending order with a cursor, counting while each gap from the
cursor is at most one day, stopping at the first larger gap. -/
def streakWalk (cur : ℤ) : List MoodEntry → ℕ
  | [] => 0
  | e :: rest => if cur - e.date ≤ 1 then 1 + streakWalk e.date rest else 0

/-- `getStreakCount` of `MoodDashboard.tsx`: 0 for no entries; 0 when the most
recent entry is more than one day before `today`; otherwise the walk over the
entries sorted by date descending, the cursor starting at the latest date. -/
def getStreakCount (today : ℤ) (entries : List MoodEntry) : ℕ :=
  if entries.length = 0 then 0
  else
    let sorted := sortDescBy (fun e => e.date) entries
    let latestDate := (sorted.headD ⟨"", 0, 0⟩).date
    if today - latestDate > 1 then 0
    else streakWalk latestDate sorted

/-- The title derivation of `saveMessageToDb`:
`content.length > 50 ? content.substring(0, 50) + '...' : content`. -/
def deriveTitle (content : List Char) : List Char :=
  if content.length > 50 then content.take 50 ++ ['.', '.', '.'] else content

/-- The guard around the title update in `saveMessageToDb`: the title is
derived and persisted only for a user message appended to a conversation that
holds no message yet. -/
def messageTitleUpdate (role : String) (priorMessages : ℕ) (content : List Char) :
    Option (List Char) :=
  if role = "user" ∧ priorMessages = 0 then some (deriveTitle content) else none

/-- The generation path `sendMessage` selects for one user turn. -/
inductive GenPath where
  | supportive (moodType : String) (intensity : ℚ)
  | creative (contentType : String)
  | advancedChat
  | basicChat
deriving DecidableEq

/-- The creative-vs-general tail of the advanced-mode branch of `sendMessage`:
story/script/narrat keywords pick creative generation (sub-type `script` over
`narration` over the default `story`), anything else the general chat model. -/
def creativeOrGeneral (inp : String) : GenPath :=
  if includes (jsToLower inp) "story" || includes (jsToLower inp) "script"
      || includes (jsToLower inp) "narrat" then
    GenPath.creative
      (if includes (jsToLower inp) "script" then "script"
       else if includes (jsToLower inp) "narrat" then "narration" else "story")
  else GenPath.advancedChat

/-- The per-turn routing of `sendMessage` in `ChatInterface.tsx`. In advanced
mode, a non-null `todaysMood` together with a `feel`/`mood` keyword (checked on
the lowercased input) selects the supportive path with the recorded mood as
context; otherwise the creative/general tail runs. Without advanced mode the
basic chat model is always used. -/
def routeMessage (useAdvancedMode : Bool) (todaysMood : Option (String × ℚ))
    (currentInput : String) : GenPath :=
  if useAdvancedMode then
    match todaysMood with
    | some (mt, i) =>
        if includes (jsToLower currentInput) "feel" || includes (jsToLower currentInput) "mood" then
          GenPath.supportive mt i
        else creativeOrGeneral currentInput
    | none => creativeOrGeneral currentInput
  else GenPath.basicChat

/-- The `moodResponses` bucket of `generateFallbackResponse`. -/
def moodResponses : List String :=
  [ "I understand you're sharing your feelings with me. It's important to acknowledge and process our emotions. Would you like to talk more about what's affecting your mood today?",
    "Thank you for opening up about how you're feeling. Emotions are a natural part of the human experience. What do you think might be contributing to these feelings?",
    "I appreciate you sharing your emotional state. Sometimes talking through our feelings can help us understand them better. Is there anything specific that's been on your mind?",
    "It sounds like you're experiencing some strong emotions. Remember that it's okay to feel whatever you're feeling. Would you like to explore what might be behind these feelings?",
    "Your feelings are valid and important. Sometimes our moods can tell us a lot about what we need. Have you noticed any patterns in what affects your emotional state?" ]

/-- The `storyResponses` bucket of `generateFallbackResponse`. -/
def storyResponses : List String :=
  [ "Great storytelling starts with a compelling hook! Consider opening with conflict, mystery, or an intriguing character moment. What genre or theme are you exploring?",
    "Every good narrative needs three key elements: engaging characters, a clear conflict, and emotional stakes. What's the central tension in your story?",
    "For narrative structure, try the three-act format: Setup (25%), Confrontation (50%), and Resolution (25%). What's your story's main turning point?",
    "Character development drives great narration. Give your characters clear motivations, flaws, and growth arcs. Who is your protagonist and what do they want?" ]

/-- The `voiceResponses` bucket of `generateFallbackResponse`. -/
def voiceResponses : List String :=
  [ "For effective voice-over scripts, write conversationally and include natural pauses. Read your script aloud to test its flow. What type of content are you creating?",
    "Voice narration works best with clear, concise language. Avoid complex sentences and use active voice. Are you writing for educational, marketing, or entertainment content?",
    "Consider your audience when crafting narration. Formal tone for business, casual for social media, warm for educational content. What's your target audience?",
    "Good narration pacing includes strategic pauses, emphasis on key points, and varied sentence lengths. What's the main message you want to convey?" ]

/-- The `contentResponses` bucket of `generateFallbackResponse`. -/
def contentResponses : List String :=
  [ "Content creation starts with understanding your audience's needs and interests. What problem are you solving or what value are you providing?",
    "Effective content follows the AIDA framework: Attention, Interest, Desire, Action. How can you grab attention in your opening?",
    "For engaging content, use storytelling techniques: relatable characters, conflict, and resolution. What story can you tell to illustrate your point?",
    "Content that resonates combines useful information with emotional connection. What emotions do you want your audience to feel?" ]

/-- The fixed help answer of `generateFallbackResponse`. -/
def helpResponse : String :=
  "I'm NarumateAI, your AI assistant for creating engaging narrated content and supporting your emotional well-being! I can help you with:\n\n• Storytelling techniques and narrative structure\n• Script writing for voice-overs\n• Content creation strategies\n• Processing feelings and emotions\n• Mood tracking and self-reflection\n• Character development\n• Dialogue writing\n\nWhat specific aspect would you like to explore?"

/-- The `generalResponses` bucket of `generateFallbackResponse`. -/
def generalResponses : List String :=
  [ "That's an interesting point! I'm here to help with both your creative projects and emotional well-being. How would you like to develop this idea further?",
    "I'd love to help you explore that concept. Whether it's for content creation or personal reflection, what specific aspect would you like to focus on?",
    "Great question! I can assist with narration, storytelling, and also provide a supportive space to discuss your feelings. What's your main goal today?",
    "That sounds like it could make for compelling content or meaningful self-reflection! How are you planning to approach this?" ]

/-- `arr[Math.floor(Math.random() * arr.length)]`: the random draw as an
arbitrary `pick` reduced modulo the bucket size. -/
def pickFrom (l : List String) (pick : ℕ) : String :=
  l.getD (pick % l.length) ""

/-- Truthiness of the optional `mood` argument: `undefined` and the empty
string are falsy in JavaScript, any other string is truthy. -/
def moodTruthy : Option String → Bool
  | none => false
  | some s => !(s == "")

/-- `generateFallbackResponse` of `huggingface.ts`: the keyword buckets tried
in order on the lowercased input, the mood/feelings bucket also taken whenever
the `mood` argument is truthy. -/
def generateFallbackResponse (userInput : String) (mood : Option String) (pick : ℕ) : String :=
  let input := jsToLower userInput
  if includes input "feel" || includes input "mood" || includes input "emotion"
      || moodTruthy mood then
    pickFrom moodResponses pick
  else if includes input "story" || includes input "narrative" || includes input "plot" then
    pickFrom storyResponses pick
  else if includes input "voice" || includes input "narration" || includes input "script" then
    pickFrom voiceResponses pick
  else if includes input "content" || includes input "create" || includes input "write" then
    pickFrom contentResponses pick
  else if includes input "help" || includes input "how" || includes input "what" then
    helpResponse
  else
    pickFrom generalResponses pick

/-- How `sendMessage` settles the assistant text for one turn: a successful
generation is trimmed and, when empty, replaced by the fallback with no mood
argument; a thrown failure (`gen = none`, covering network errors and non-2xx
responses, which `makeRequest` turns into exceptions) is replaced in the catch
block by the fallback with `todaysMood?.mood_type` as the mood argument. -/
def resolveAssistantContent (gen : Option String) (inp : String)
    (todaysMoodType : Option String) (pick : ℕ) : String :=
  match gen with
  | some s => if jsTrim s = "" then generateFallbackResponse inp none pick else jsTrim s
  | none => generateFallbackResponse inp todaysMoodType pick

/-- The spec's wording of the average: the arithmetic mean "rounded to 1
decimal place using standard round-half-up". Stated independently of the code,
for comparison with the `averageIntensity` the code computes. -/
def roundHalfUpTo1Decimal (q : ℚ) : ℚ := (⌊q * 10 + 1 / 2⌋ : ℚ) / 10

/-- The total of the counts stored in a distribution object. -/
def sumCounts (d : List (String × ℕ)) : ℕ := (d.map Prod.snd).sum

/-- `Object.keys` of a distribution object, in insertion order. -/
def keysOf (d : List (String × ℕ)) : List String := d.map Prod.fst

/-- `d[k] || 0`: the count stored under key `k`, 0 when the key is absent. -/
def cnt : List (String × ℕ) → String → ℕ
  | [], _ => 0
  | (k, c) :: rest, m => if k = m then c else cnt rest m

/-- The largest key `f` takes on a list (0 for the empty list, which no use
below reaches). -/
def maxKey (f : α → ℤ) : List α → ℤ
  | [] => 0
  | x :: xs => if xs.isEmpty then f x else max (f x) (maxKey f xs)

set_option maxRecDepth 10000

/-! ## Helper lemmas -/

theorem sortDescBy_three (f : α → ℤ) (a b c : α) (hab : f b ≤ f a) (hbc : f c ≤ f b) :
    sortDescBy f [a, b, c] = [a, b, c] := by
  simp [sortDescBy, insertDescBy, hab, hbc]

theorem sortDescBy_two (f : α → ℤ) (a b : α) (hab : f b ≤ f a) :
    sortDescBy f [a, b] = [a, b] := by
  simp [sortDescBy, insertDescBy, hab]

/-! ## C5: the empty entry list -/

/-- C5: given no entries, `getMoodStats` returns the zero-valued record —
`totalEntries = 0`, `averageIntensity = 0`, `mostCommonMood = ""`, an empty
distribution and an empty weekly trend — rather than failing. -/
theorem getMoodStats_empty :
    getMoodStats [] =
      { totalEntries := 0, averageIntensity := 0, mostCommonMood := "",
        moodDistribution := [], weeklyTrend := [] } := rfl

/-! ## C7: title derivation from the first user message -/

/-- C7: appending the first user message derives the conversation title from
its content: content of at most 50 characters is the title unchanged, longer
content is cut to its first 50 characters plus `"..."`, so an over-long first
message (for instance one of 80 characters) yields a 53-character title. -/
theorem deriveTitle_spec (content : List Char) :
    messageTitleUpdate "user" 0 content = some (deriveTitle content) ∧
    (content.length ≤ 50 → deriveTitle content = content) ∧
    (50 < content.length →
      deriveTitle content = content.take 50 ++ ['.', '.', '.'] ∧
      (deriveTitle content).length = 53) := by
  refine ⟨by simp [messageTitleUpdate], fun h => ?_, fun h => ?_⟩
  · simp only [deriveTitle]
    rw [if_neg (by omega)]
  · simp only [deriveTitle]
    rw [if_pos (by omega)]
    refine ⟨rfl, ?_⟩
    simp [List.length_take]
    omega

/-- Witness for C7: an 80-character message is truncated to a 53-character
title, and an 11-character one is kept verbatim. -/
theorem deriveTitle_spec_witness :
    deriveTitle (List.replicate 80 'a')
        = (List.replicate 80 'a').take 50 ++ ['.', '.', '.'] ∧
    (deriveTitle (List.replicate 80 'a')).length = 53 ∧
    deriveTitle "Hello world".toList = "Hello world".toList :=
  ⟨((deriveTitle_spec (List.replicate 80 'a')).2.2 (by decide)).1,
   ((deriveTitle_spec (List.replicate 80 'a')).2.2 (by decide)).2,
   (deriveTitle_spec "Hello world".toList).2.1 (by decide)⟩

/-! ## C2: the streak scenarios -/

/-- C2: with one entry per day, dates {today, today−1, today−2} give a streak
of 3; a single entry dated today−2 (more than one day before today) gives 0;
dates {today, today−1, today−3} give 2, the walk stopping at the gap of 2 days
before today−3. -/
theorem getStreakCount_scenarios (t : ℤ) :
    getStreakCount t [⟨"happy", 3, t⟩, ⟨"calm", 2, t - 1⟩, ⟨"sad", 4, t - 2⟩] = 3 ∧
    getStreakCount t [⟨"calm", 2, t - 2⟩] = 0 ∧
    getStreakCount t [⟨"happy", 3, t⟩, ⟨"calm", 2, t - 1⟩, ⟨"sad", 4, t - 3⟩] = 2 := by
  refine ⟨?_, ?_, ?_⟩
  · have hs : sortDescBy (fun e : MoodEntry => e.date)
        [⟨"happy", 3, t⟩, ⟨"calm", 2, t - 1⟩, ⟨"sad", 4, t - 2⟩]
        = [⟨"happy", 3, t⟩, ⟨"calm", 2, t - 1⟩, ⟨"sad", 4, t - 2⟩] :=
      sortDescBy_three _ _ _ _ (by show t - 1 ≤ t; omega) (by show t - 2 ≤ t - 1; omega)
    simp only [getStreakCount, hs, List.headD_cons, List.length_cons]
    rw [if_neg (by omega), if_neg (by omega)]
    simp only [streakWalk]
    rw [if_pos (by omega), if_pos (by omega), if_pos (by omega)]
  · simp only [getStreakCount, sortDescBy, insertDescBy, List.headD_cons, List.length_cons]
    rw [if_neg (by omega), if_pos (by omega)]
  · have hs : sortDescBy (fun e : MoodEntry => e.date)
        [⟨"happy", 3, t⟩, ⟨"calm", 2, t - 1⟩, ⟨"sad", 4, t - 3⟩]
        = [⟨"happy", 3, t⟩, ⟨"calm", 2, t - 1⟩, ⟨"sad", 4, t - 3⟩] :=
      sortDescBy_three _ _ _ _ (by show t - 1 ≤ t; omega) (by show t - 3 ≤ t - 1; omega)
    simp only [getStreakCount, hs, List.headD_cons, List.length_cons]
    rw [if_neg (by omega), if_neg (by omega)]
    simp only [streakWalk]
    rw [if_pos (by omega), if_pos (by omega), if_neg (by omega)]

/-! ## C3: duplicate same-day entries inflate the streak -/

/-- C3 (failing input): two entries on the same calendar day `t` make
`getStreakCount` return 2, although the walk covers a single distinct day —
each retained entry increments the streak, also when its date repeats the
cursor's date (a gap of 0 is `≤ 1`). -/
theorem getStreakCount_duplicate_day (t : ℤ) :
    getStreakCount t [⟨"happy", 3, t⟩, ⟨"happy", 4, t⟩] = 2 ∧
    (([⟨"happy", 3, t⟩, ⟨"happy", 4, t⟩] : List MoodEntry).map (·.date)).dedup.length = 1 := by
  constructor
  · have hs : sortDescBy (fun e : MoodEntry => e.date)
        [⟨"happy", 3, t⟩, ⟨"happy", 4, t⟩] = [⟨"happy", 3, t⟩, ⟨"happy", 4, t⟩] :=
      sortDescBy_two _ _ _ (by show t ≤ t; omega)
    simp only [getStreakCount, hs, List.headD_cons, List.length_cons]
    rw [if_neg (by omega), if_neg (by omega)]
    simp only [streakWalk]
    rw [if_pos (by omega), if_pos (by omega)]
  · simp

/-! ## C8: routing precedence of the supportive path -/

/-- C8: in advanced mode with a mood recorded for today, an input holding a
mood keyword (case-insensitive substring) routes to the supportive path, ahead
of the creative and general paths; in particular "I feel overwhelmed" — which
holds no story/script/narrat keyword — takes the supportive path. -/
theorem routeMessage_supportive (mt : String) (i : ℚ) (inp : String)
    (hkw : (includes (jsToLower inp) "feel" || includes (jsToLower inp) "mood") = true) :
    routeMessage true (some (mt, i)) inp = GenPath.supportive mt i ∧
    routeMessage true (some (mt, i)) "I feel overwhelmed" = GenPath.supportive mt i ∧
    (includes (jsToLower "I feel overwhelmed") "story"
      || includes (jsToLower "I feel overwhelmed") "script"
      || includes (jsToLower "I feel overwhelmed") "narrat") = false := by
  refine ⟨?_, ?_, by decide⟩
  · simp [routeMessage, hkw]
  · simp [routeMessage,
      show includes (jsToLower "I feel overwhelmed") "feel" = true from by decide]

/-- Witness for C8: the supportive path is taken for "I feel overwhelmed" with
the mood "anxious" at intensity 3 recorded for today, and also for an input
that holds a story keyword besides the mood keyword. -/
theorem routeMessage_supportive_witness :
    routeMessage true (some ("anxious", 3)) "I feel overwhelmed"
        = GenPath.supportive "anxious" 3 ∧
    routeMessage true (some ("anxious", 3)) "I feel stuck in my story"
        = GenPath.supportive "anxious" 3 :=
  ⟨(routeMessage_supportive "anxious" 3 "I feel overwhelmed" (by decide)).1,
   (routeMessage_supportive "anxious" 3 "I feel stuck in my story" (by decide)).1⟩

/-! ## C9 and C10: the fallback responses -/

theorem pickFrom_mem (l : List String) (hl : l ≠ []) (pick : ℕ) : pickFrom l pick ∈ l := by
  have hlt : pick % l.length < l.length := Nat.mod_lt _ (List.length_pos.2 hl)
  rw [pickFrom, List.getD_eq_getElem l "" hlt]
  exact List.getElem_mem hlt

theorem pickFrom_ne_empty (l : List String) (hl : l ≠ [])
    (hall : l.all (fun s => !(s == "")) = true) (pick : ℕ) : pickFrom l pick ≠ "" := by
  have h := List.all_eq_true.1 hall _ (pickFrom_mem l hl pick)
  simpa using h

theorem generateFallbackResponse_ne_empty (inp : String) (mood : Option String) (pick : ℕ) :
    generateFallbackResponse inp mood pick ≠ "" := by
  rw [generateFallbackResponse]
  split_ifs
  · exact pickFrom_ne_empty _ (by decide) (by decide) _
  · exact pickFrom_ne_empty _ (by decide) (by decide) _
  · exact pickFrom_ne_empty _ (by decide) (by decide) _
  · exact pickFrom_ne_empty _ (by decide) (by decide) _
  · decide
  · exact pickFrom_ne_empty _ (by decide) (by decide) _

/-- C9: whatever the generation outcome, the assistant text `sendMessage`
settles on is non-empty; a thrown failure is replaced by the fallback with
today's mood as context, and a response that is empty after trimming is
replaced by the fallback with no mood argument — a raw error never reaches
the user. -/
theorem resolveAssistantContent_total (gen : Option String) (inp : String)
    (mood : Option String) (pick : ℕ) :
    resolveAssistantContent gen inp mood pick ≠ "" ∧
    resolveAssistantContent none inp mood pick = generateFallbackResponse inp mood pick ∧
    (∀ s, gen = some s → jsTrim s = "" →
      resolveAssistantContent gen inp mood pick = generateFallbackResponse inp none pick) := by
  refine ⟨?_, rfl, ?_⟩
  · cases gen with
    | none => exact generateFallbackResponse_ne_empty inp mood pick
    | some s =>
        by_cases h : jsTrim s = ""
        · simpa [resolveAssistantContent, h] using
            generateFallbackResponse_ne_empty inp none pick
        · simp [resolveAssistantContent, h]
  · rintro s rfl h
    simp [resolveAssistantContent, h]

/-- Witness for C9: a thrown failure on "hello" with the mood "calm" recorded,
and a whitespace-only generation on the same input, both end in a non-empty
fallback text. -/
theorem resolveAssistantContent_total_witness :
    resolveAssistantContent none "hello" (some "calm") 0 ≠ "" ∧
    resolveAssistantContent none "hello" (some "calm") 0
        = generateFallbackResponse "hello" (some "calm") 0 ∧
    resolveAssistantContent (some "   ") "hello" (some "calm") 0
        = generateFallbackResponse "hello" none 0 :=
  ⟨(resolveAssistantContent_total none "hello" (some "calm") 0).1,
   (resolveAssistantContent_total none "hello" (some "calm") 0).2.1,
   (resolveAssistantContent_total (some "   ") "hello" (some "calm") 0).2.2
     "   " rfl (by decide)⟩

/-- C10 (counterexample): with the defined but empty mood argument `some ""` —
falsy in JavaScript — an input holding a story keyword is answered from the
story bucket, not the mood/feelings bucket, so a defined mood does not satisfy
the first branch unconditionally. -/
theorem generateFallbackResponse_empty_mood_counterexample :
    generateFallbackResponse "Help me write a story" (some "") 0 ∉ moodResponses ∧
    generateFallbackResponse "Help me write a story" (some "") 0 ∈ storyResponses := by
  exact ⟨by decide, by decide⟩

/-- C10 (amended): whenever the mood argument is defined and non-empty — as it
is when the orchestrator passes a recorded mood category — the fallback text is
drawn from the mood/feelings bucket, whatever the input text holds. -/
theorem generateFallbackResponse_mood_bucket (inp m : String) (hm : m ≠ "") (pick : ℕ) :
    generateFallbackResponse inp (some m) pick ∈ moodResponses := by
  have ht : moodTruthy (some m) = true := by simp [moodTruthy, hm]
  rw [generateFallbackResponse]
  simp only [ht, Bool.or_true, if_true]
  exact pickFrom_mem _ (by decide) _

/-- Witness for C10's amended claim: a story-keyword input with the non-empty
mood "anxious" is still answered from the mood/feelings bucket. -/
theorem generateFallbackResponse_mood_bucket_witness :
    generateFallbackResponse "Help me write a story" (some "anxious") 3 ∈ moodResponses :=
  generateFallbackResponse_mood_bucket "Help me write a story" "anxious" (by decide) 3

/-! ## C1: the average intensity -/

theorem mul_length_le_sum (l : List ℚ) (a : ℚ) (h : ∀ x ∈ l, a ≤ x) :
    a * l.length ≤ l.sum := by
  induction l with
  | nil => simp
  | cons x xs ih =>
      have hx : a ≤ x := h x (by simp)
      have hxs := ih (fun y hy => h y (by simp [hy]))
      simp only [List.sum_cons, List.length_cons]
      push_cast
      have hexp : a * ((xs.length : ℚ) + 1) = a * xs.length + a := by ring
      linarith

theorem sum_le_mul_length (l : List ℚ) (b : ℚ) (h : ∀ x ∈ l, x ≤ b) :
    l.sum ≤ b * l.length := by
  induction l with
  | nil => simp
  | cons x xs ih =>
      have hx : x ≤ b := h x (by simp)
      have hxs := ih (fun y hy => h y (by simp [hy]))
      simp only [List.sum_cons, List.length_cons]
      push_cast
      have hexp : b * ((xs.length : ℚ) + 1) = b * xs.length + b := by ring
      linarith

/-- C1: on a non-empty entry list with all intensities in [1, 5], the
`averageIntensity` of `getMoodStats` is the arithmetic mean of the intensities
rounded to one decimal place with round-half-up, and it lies in [1, 5]. -/
theorem getMoodStats_averageIntensity (entries : List MoodEntry) (hne : entries ≠ [])
    (hint : ∀ e ∈ entries, 1 ≤ e.intensity ∧ e.intensity ≤ 5) :
    (getMoodStats entries).averageIntensity
        = roundHalfUpTo1Decimal ((entries.map (·.intensity)).sum / entries.length) ∧
    1 ≤ (getMoodStats entries).averageIntensity ∧
    (getMoodStats entries).averageIntensity ≤ 5 := by
  have hlen : ¬ entries.length = 0 := by
    simpa using (List.length_pos.2 hne).ne'
  have hlpos : (0 : ℚ) < entries.length := by
    exact_mod_cast List.length_pos.2 hne
  set avg : ℚ := (entries.map (·.intensity)).sum / entries.length with havg
  have hstats : (getMoodStats entries).averageIntensity = (jsRound (avg * 10) : ℚ) / 10 := by
    simp only [getMoodStats, if_neg hlen]
  have h1 : 1 * ((entries.map (·.intensity)).length : ℚ) ≤ (entries.map (·.intensity)).sum :=
    mul_length_le_sum _ 1 (by
      intro x hx
      obtain ⟨e, he, rfl⟩ := List.mem_map.1 hx
      exact (hint e he).1)
  have h5 : (entries.map (·.intensity)).sum ≤ 5 * ((entries.map (·.intensity)).length : ℚ) :=
    sum_le_mul_length _ 5 (by
      intro x hx
      obtain ⟨e, he, rfl⟩ := List.mem_map.1 hx
      exact (hint e he).2)
  rw [List.length_map] at h1 h5
  have havg1 : 1 ≤ avg := by
    rw [havg, le_div_iff₀ hlpos]
    exact h1
  have havg5 : avg ≤ 5 := by
    rw [havg, div_le_iff₀ hlpos]
    linarith
  have hz1 : (10 : ℤ) ≤ jsRound (avg * 10) := by
    rw [jsRound]
    refine Int.le_floor.2 ?_
    push_cast
    linarith
  have hz2 : jsRound (avg * 10) ≤ 50 := by
    rw [jsRound]
    have hf := Int.floor_lt.2 (by push_cast; linarith : (avg * 10 + 1 / 2 : ℚ) < ((51 : ℤ) : ℚ))
    omega
  refine ⟨by rw [hstats]; rfl, ?_, ?_⟩
  · rw [hstats, le_div_iff₀ (by norm_num : (0:ℚ) < 10)]
    have h10 : ((10 : ℤ) : ℚ) ≤ (jsRound (avg * 10) : ℚ) := by exact_mod_cast hz1
    push_cast at h10
    linarith
  · rw [hstats, div_le_iff₀ (by norm_num : (0:ℚ) < 10)]
    have h50 : ((jsRound (avg * 10) : ℤ) : ℚ) ≤ ((50 : ℤ) : ℚ) := by exact_mod_cast hz2
    push_cast at h50
    linarith

/-- Witness for C1: two entries of intensities 4 and 3 have a mean of 3.5,
which the statistics report unchanged by the 1-decimal rounding, within
[1, 5]. -/
theorem getMoodStats_averageIntensity_witness :
    (getMoodStats [⟨"happy", 4, 0⟩, ⟨"sad", 3, 1⟩]).averageIntensity
        = roundHalfUpTo1Decimal
            ((([⟨"happy", 4, 0⟩, ⟨"sad", 3, 1⟩] : List MoodEntry).map (·.intensity)).sum
              / ([⟨"happy", 4, 0⟩, ⟨"sad", 3, 1⟩] : List MoodEntry).length) ∧
    1 ≤ (getMoodStats [⟨"happy", 4, 0⟩, ⟨"sad", 3, 1⟩]).averageIntensity ∧
    (getMoodStats [⟨"happy", 4, 0⟩, ⟨"sad", 3, 1⟩]).averageIntensity ≤ 5 :=
  getMoodStats_averageIntensity [⟨"happy", 4, 0⟩, ⟨"sad", 3, 1⟩] (by decide) (by decide)


/-! ## C6: the mood distribution is sound -/

theorem bump_sumCounts (d : List (String × ℕ)) (m : String) :
    sumCounts (bump d m) = sumCounts d + 1 := by
  induction d with
  | nil => rfl
  | cons p rest ih =>
      obtain ⟨k, c⟩ := p
      by_cases h : k = m <;> simp [bump, h, sumCounts] <;>
        simp [sumCounts] at ih <;> omega

theorem foldl_bump_sumCounts (l : List String) :
    ∀ d, sumCounts (List.foldl bump d l) = sumCounts d + l.length := by
  induction l with
  | nil => intro d; simp
  | cons m ms ih =>
      intro d
      simp only [List.foldl_cons, List.length_cons, ih (bump d m), bump_sumCounts]
      omega

theorem bump_keysOf (d : List (String × ℕ)) (m : String) :
    keysOf (bump d m) = if m ∈ keysOf d then keysOf d else keysOf d ++ [m] := by
  induction d with
  | nil => simp [bump, keysOf]
  | cons p rest ih =>
      obtain ⟨k, c⟩ := p
      by_cases h : k = m
      · simp [bump, h, keysOf]
      · simp only [bump, if_neg h, keysOf, List.map_cons] at ih ⊢
        rw [ih]
        by_cases hm : m ∈ List.map Prod.fst rest <;>
          simp [hm, Ne.symm h]

theorem mem_keysOf_foldl (l : List String) (k : String) :
    ∀ d, k ∈ keysOf (List.foldl bump d l) ↔ k ∈ keysOf d ∨ k ∈ l := by
  induction l with
  | nil => intro d; simp
  | cons m ms ih =>
      intro d
      simp only [List.foldl_cons, ih (bump d m), bump_keysOf]
      by_cases hm : m ∈ keysOf d
      · simp only [if_pos hm, List.mem_cons]
        constructor
        · rintro (h | h)
          · exact Or.inl h
          · exact Or.inr (Or.inr h)
        · rintro (h | h | h)
          · exact Or.inl h
          · exact Or.inl (h ▸ hm)
          · exact Or.inr h
      · simp only [if_neg hm, List.mem_append, List.mem_singleton, List.mem_cons]
        tauto

/-- C6: for every entry list, the counts of `moodDistribution` sum to
`totalEntries`, and every key of the distribution is the primary mood of some
entry — absent categories are omitted, never zero-filled. -/
theorem distribution_sound (entries : List MoodEntry) :
    sumCounts (getMoodStats entries).moodDistribution = (getMoodStats entries).totalEntries ∧
    ∀ p ∈ (getMoodStats entries).moodDistribution, ∃ e ∈ entries, e.mood_type = p.1 := by
  by_cases h : entries.length = 0
  · have : entries = [] := List.length_eq_zero.1 h
    subst this
    exact ⟨rfl, by simp [getMoodStats, sumCounts]⟩
  · constructor
    · simp only [getMoodStats, if_neg h, moodDistribution]
      rw [foldl_bump_sumCounts]
      simp [sumCounts]
    · intro p hp
      simp only [getMoodStats, if_neg h, moodDistribution] at hp
      have hk : p.1 ∈ keysOf (List.foldl bump [] (entries.map (·.mood_type))) :=
        List.mem_map.2 ⟨p, hp, rfl⟩
      rw [mem_keysOf_foldl] at hk
      rcases hk with hk | hk
      · simp [keysOf] at hk
      · obtain ⟨e, he, hme⟩ := List.mem_map.1 hk
        exact ⟨e, he, hme⟩

/-! ## C4: the most common mood -/

theorem bump_cnt (d : List (String × ℕ)) (m k : String) :
    cnt (bump d m) k = if m = k then cnt d k + 1 else cnt d k := by
  induction d with
  | nil => by_cases h : m = k <;> simp [bump, cnt, h]
  | cons p rest ih =>
      obtain ⟨k', c⟩ := p
      by_cases h : k' = m
      · subst h
        by_cases hk : k' = k <;> simp [bump, cnt, hk]
      · by_cases hk : k' = k
        · subst hk
          have hmk : ¬ m = k' := fun hh => h hh.symm
          simp [bump, if_neg h, cnt, hmk]
        · simp [bump, if_neg h, cnt, hk, ih]

theorem foldl_bump_cnt (l : List String) (k : String) :
    ∀ d, cnt (List.foldl bump d l) k = cnt d k + l.count k := by
  induction l with
  | nil => intro d; simp
  | cons m ms ih =>
      intro d
      simp only [List.foldl_cons, ih (bump d m), bump_cnt, List.count_cons]
      by_cases h : m = k
      · simp [h]
        omega
      · simp [h]

theorem keysOf_nodup_bump (d : List (String × ℕ)) (m : String)
    (h : (keysOf d).Nodup) : (keysOf (bump d m)).Nodup := by
  rw [bump_keysOf]
  by_cases hm : m ∈ keysOf d
  · simpa [hm] using h
  · simp only [if_neg hm]
    simpa [List.nodup_append] using ⟨h, hm⟩

theorem keysOf_nodup_foldl (l : List String) :
    ∀ d, (keysOf d).Nodup → (keysOf (List.foldl bump d l)).Nodup := by
  induction l with
  | nil => intro d h; simpa using h
  | cons m ms ih =>
      intro d h
      exact ih (bump d m) (keysOf_nodup_bump d m h)

theorem pair_mem_of_key (d : List (String × ℕ)) (k : String) (h : k ∈ keysOf d) :
    (k, cnt d k) ∈ d := by
  induction d with
  | nil => simp [keysOf] at h
  | cons p rest ih =>
      obtain ⟨k', c⟩ := p
      by_cases hk : k' = k
      · subst hk
        simp [cnt]
      · simp only [keysOf, List.map_cons, List.mem_cons] at h
        rcases h with h | h
        · exact absurd h.symm hk
        · simp only [cnt, if_neg hk]
          exact List.mem_cons_of_mem _ (ih h)

theorem find?_congr_mem {α : Type} {p q : α → Bool} (l : List α)
    (h : ∀ x ∈ l, p x = q x) : l.find? p = l.find? q := by
  induction l with
  | nil => rfl
  | cons a as ih =>
      have ha := h a (by simp)
      cases hp : p a
      · rw [List.find?_cons_of_neg _ (by simp [hp]),
          List.find?_cons_of_neg _ (by simp [← ha, hp]),
          ih (fun x hx => h x (by simp [hx]))]
      · rw [List.find?_cons_of_pos _ hp, List.find?_cons_of_pos _ (ha ▸ hp)]

theorem find?_append_cases {α : Type} (l₁ l₂ : List α) (p : α → Bool) :
    (l₁ ++ l₂).find? p =
      match l₁.find? p with
      | some a => some a
      | none => l₂.find? p := by
  induction l₁ with
  | nil => simp
  | cons a as ih =>
      cases hp : p a
      · simp only [List.cons_append, List.find?_cons_of_neg _ (by simp [hp] : ¬ p a = true), ih]
      · simp only [List.cons_append, List.find?_cons_of_pos _ hp]

theorem le_maxKey (f : α → ℤ) : ∀ (l : List α), ∀ x ∈ l, f x ≤ maxKey f l := by
  intro l
  induction l with
  | nil => simp
  | cons a as ih =>
      intro x hx
      cases as with
      | nil =>
          simp only [List.mem_singleton] at hx
          simp [maxKey, hx]
      | cons b bs =>
          have hmk : maxKey f (a :: b :: bs) = max (f a) (maxKey f (b :: bs)) := by
            simp [maxKey]
          rcases List.mem_cons.1 hx with h | h
          · rw [hmk, h]
            exact le_max_left _ _
          · rw [hmk]
            exact le_trans (ih x h) (le_max_right _ _)

theorem sortDescBy_head (f : α → ℤ) :
    ∀ (l : List α), l ≠ [] →
      ∃ h t, sortDescBy f l = h :: t ∧ f h = maxKey f l ∧
        l.find? (fun x => decide (maxKey f l ≤ f x)) = some h := by
  intro l
  induction l with
  | nil => intro h; exact absurd rfl h
  | cons x xs ih =>
      intro _
      cases xs with
      | nil =>
          refine ⟨x, [], rfl, by simp [maxKey], ?_⟩
          rw [List.find?_cons_of_pos _ (by simp [maxKey])]
      | cons y ys =>
          obtain ⟨h', t', hs', hmax', hfind'⟩ := ih (by simp)
          have hmk : maxKey f (x :: y :: ys) = max (f x) (maxKey f (y :: ys)) := by
            simp [maxKey]
          by_cases hc : maxKey f (y :: ys) ≤ f x
          · have hmx : maxKey f (x :: y :: ys) = f x := by rw [hmk]; exact max_eq_left hc
            refine ⟨x, h' :: t', ?_, by rw [hmx], ?_⟩
            · show insertDescBy f x (sortDescBy f (y :: ys)) = x :: h' :: t'
              rw [hs', insertDescBy, if_pos (hmax' ▸ hc)]
            · rw [List.find?_cons_of_pos _ (by simp [hmx])]
          · push_neg at hc
            have hmx : maxKey f (x :: y :: ys) = maxKey f (y :: ys) := by
              rw [hmk]; exact max_eq_right hc.le
            refine ⟨h', insertDescBy f x t', ?_, by rw [hmx, hmax'], ?_⟩
            · show insertDescBy f x (sortDescBy f (y :: ys)) = h' :: insertDescBy f x t'
              rw [hs', insertDescBy, if_neg (by rw [hmax']; omega)]
            · rw [List.find?_cons_of_neg _ (by simp [hmx]; omega)]
              have hpred : (fun z => decide (maxKey f (x :: y :: ys) ≤ f z))
                  = fun z => decide (maxKey f (y :: ys) ≤ f z) := by
                funext z
                rw [hmx]
              rw [hpred]
              exact hfind'

theorem find?_pairs_keys (b : ℕ → Bool) :
    ∀ (d : List (String × ℕ)), (keysOf d).Nodup →
      (d.find? (fun p => b p.2)).map Prod.fst
        = (keysOf d).find? (fun k => b (cnt d k)) := by
  intro d
  induction d with
  | nil => intro _; rfl
  | cons p rest ih =>
      intro hnd
      obtain ⟨k, c⟩ := p
      simp only [keysOf, List.map_cons] at hnd ⊢
      have hk : k ∉ List.map Prod.fst rest := (List.nodup_cons.1 hnd).1
      have hrest : (List.map Prod.fst rest).Nodup := (List.nodup_cons.1 hnd).2
      have hcnt : cnt ((k, c) :: rest) k = c := by simp [cnt]
      cases hb : b c
      · rw [List.find?_cons_of_neg _ (by simp [hb]),
          List.find?_cons_of_neg _ (by simp [hcnt, hb])]
        rw [ih hrest]
        refine find?_congr_mem _ ?_
        intro x hx
        have hxk : ¬ k = x := fun hh => hk (hh ▸ hx)
        simp [cnt, hxk]
      · rw [List.find?_cons_of_pos _ (by simp [hb]),
          List.find?_cons_of_pos _ (by simp [hcnt, hb])]
        rfl

theorem find?_keys_foldl (Q : String → Bool) :
    ∀ (l : List String) (d : List (String × ℕ)),
      (keysOf (List.foldl bump d l)).find? Q =
        match (keysOf d).find? Q with
        | some h => some h
        | none => l.find? (fun m => Q m && !(decide (m ∈ keysOf d))) := by
  intro l
  induction l with
  | nil =>
      intro d
      cases h : (keysOf d).find? Q <;> simp [h]
  | cons m ms ih =>
      intro d
      simp only [List.foldl_cons]
      rw [ih (bump d m)]
      by_cases hm : m ∈ keysOf d
      · have hkeys : keysOf (bump d m) = keysOf d := by rw [bump_keysOf, if_pos hm]
        rw [hkeys]
        cases hfd : (keysOf d).find? Q
        · rw [List.find?_cons_of_neg _ (by simp [hm])]
        · rfl
      · have hkeys : keysOf (bump d m) = keysOf d ++ [m] := by rw [bump_keysOf, if_neg hm]
        rw [hkeys, find?_append_cases]
        cases hfd : (keysOf d).find? Q
        · cases hQ : Q m
          · have hemp : ([m].find? Q) = none := by
              simp [List.find?, hQ]
            rw [hemp]
            rw [List.find?_cons_of_neg _ (by simp [hQ])]
            have hpred : (fun x => Q x && !(decide (x ∈ keysOf d ++ [m])))
                = fun x => Q x && !(decide (x ∈ keysOf d)) := by
              funext x
              by_cases hx : Q x
              · have hxm : ¬ x = m := fun hh => by rw [hh] at hx; simp [hQ] at hx
                simp [hx, hxm]
              · simp [hx]
            rw [hpred]
          · have hone : ([m].find? Q) = some m := by
              simp [List.find?, hQ]
            rw [hone]
            rw [List.find?_cons_of_pos _ (by simp [hQ, hm])]
        · rfl

theorem dist_find_first (moods : List String) (b : ℕ → Bool) :
    ((moodDistribution moods).find? (fun p => b p.2)).map Prod.fst
      = moods.find? (fun m => b (moods.count m)) := by
  have hnd : (keysOf (moodDistribution moods)).Nodup := by
    rw [moodDistribution]
    exact keysOf_nodup_foldl _ [] (by simp [keysOf])
  rw [find?_pairs_keys b _ hnd]
  have hmdef : moodDistribution moods = List.foldl bump [] moods := rfl
  have hKO := find?_keys_foldl (fun k => b (cnt (moodDistribution moods) k)) moods []
  rw [hmdef] at hKO ⊢
  rw [hKO]
  simp only [keysOf, List.map_nil, List.find?_nil, List.not_mem_nil, decide_False,
    Bool.not_false, Bool.and_true]
  refine find?_congr_mem _ ?_
  intro m _
  rw [foldl_bump_cnt moods m []]
  simp [cnt]

/-- C4: on a non-empty entry list, `mostCommonMood` carries the maximal count
of the distribution, and among tied categories it is the first one encountered
scanning the entries in their given order (`find?` returns the first match). -/
theorem mostCommonMood_first_max (entries : List MoodEntry) (hne : entries ≠ []) :
    ∃ M : ℕ,
      ((getMoodStats entries).mostCommonMood, M) ∈ (getMoodStats entries).moodDistribution ∧
      (∀ p ∈ (getMoodStats entries).moodDistribution, p.2 ≤ M) ∧
      (entries.map (·.mood_type)).find?
          (fun m => decide ((entries.map (·.mood_type)).count m = M))
        = some (getMoodStats entries).mostCommonMood := by
  have hlen : ¬ entries.length = 0 := by simpa using (List.length_pos.2 hne).ne'
  have hmne : entries.map (·.mood_type) ≠ [] := by simpa using hne
  obtain ⟨m0, hm0⟩ := List.exists_mem_of_ne_nil _ hmne
  have hm0k : m0 ∈ keysOf (moodDistribution (entries.map (·.mood_type))) := by
    rw [moodDistribution]
    exact (mem_keysOf_foldl _ m0 []).2 (Or.inr hm0)
  have hdne : moodDistribution (entries.map (·.mood_type)) ≠ [] := by
    intro hd
    rw [hd] at hm0k
    simp [keysOf] at hm0k
  obtain ⟨h, t, hs, hmax, hfind⟩ :=
    sortDescBy_head (fun p : String × ℕ => (p.2 : ℤ)) _ hdne
  have hmost : (getMoodStats entries).mostCommonMood = h.1 := by
    simp only [getMoodStats, if_neg hlen, hs, List.head?_cons]
  have hfind' : (moodDistribution (entries.map (·.mood_type))).find?
      (fun p => decide (maxKey (fun p : String × ℕ => (p.2 : ℤ))
        (moodDistribution (entries.map (·.mood_type))) ≤ (p.2 : ℤ))) = some h := hfind
  have hub : ∀ p ∈ moodDistribution (entries.map (·.mood_type)), p.2 ≤ h.2 := by
    intro p hp
    have hb : ((p.2 : ℤ)) ≤ ((h.2 : ℤ)) := by
      have := le_maxKey (fun p : String × ℕ => (p.2 : ℤ)) _ p hp
      rw [← hmax] at this
      exact this
    exact_mod_cast hb
  refine ⟨h.2, ?_, ?_, ?_⟩
  · rw [hmost]
    simp only [getMoodStats, if_neg hlen]
    simpa using List.mem_of_find?_eq_some hfind
  · intro p hp
    simp only [getMoodStats, if_neg hlen] at hp
    exact hub p hp
  · have hDF : ((moodDistribution (entries.map (·.mood_type))).find?
        (fun p => decide (maxKey (fun p : String × ℕ => (p.2 : ℤ))
          (moodDistribution (entries.map (·.mood_type))) ≤ (p.2 : ℤ)))).map Prod.fst
        = (entries.map (·.mood_type)).find?
            (fun m => decide (maxKey (fun p : String × ℕ => (p.2 : ℤ))
              (moodDistribution (entries.map (·.mood_type)))
                ≤ ((entries.map (·.mood_type)).count m : ℤ))) :=
      dist_find_first (entries.map (·.mood_type))
        (fun c : ℕ => decide (maxKey (fun p : String × ℕ => (p.2 : ℤ))
          (moodDistribution (entries.map (·.mood_type))) ≤ (c : ℤ)))
  
    rw [hfind'] at hDF
    have hcongr : (entries.map (·.mood_type)).find?
        (fun m => decide (maxKey (fun p : String × ℕ => (p.2 : ℤ))
          (moodDistribution (entries.map (·.mood_type)))
            ≤ ((entries.map (·.mood_type)).count m : ℤ)))
        = (entries.map (·.mood_type)).find?
            (fun m => decide ((entries.map (·.mood_type)).count m = h.2)) := by
      refine find?_congr_mem _ ?_
      intro m hm
      have hmk : m ∈ keysOf (moodDistribution (entries.map (·.mood_type))) := by
        rw [moodDistribution]
        exact (mem_keysOf_foldl _ m []).2 (Or.inr hm)
      have hcm : cnt (moodDistribution (entries.map (·.mood_type))) m
          = (entries.map (·.mood_type)).count m := by
        have := foldl_bump_cnt (entries.map (·.mood_type)) m []
        rw [show List.foldl bump [] (entries.map (·.mood_type))
            = moodDistribution (entries.map (·.mood_type)) from rfl] at this
        simpa [cnt] using this
      have hle : (entries.map (·.mood_type)).count m ≤ h.2 := by
        have := hub _ (pair_mem_of_key _ m hmk)
        rwa [hcm] at this
      rw [← hmax, decide_eq_decide]
      constructor
      · intro hge
        have : h.2 ≤ (entries.map (·.mood_type)).count m := by exact_mod_cast hge
        omega
      · intro heq
        rw [heq]
    rw [hcongr] at hDF
    rw [hmost]
    simp only [Option.map_some'] at hDF
    exact hDF.symm

/-- Witness for C6: three entries, two "happy" and one "sad", give counts
summing to 3, and the key "sad" is the primary mood of an entry. -/
theorem distribution_sound_witness :
    sumCounts (getMoodStats [⟨"happy", 3, 0⟩, ⟨"sad", 2, 1⟩, ⟨"happy", 4, 2⟩]).moodDistribution
        = (getMoodStats [⟨"happy", 3, 0⟩, ⟨"sad", 2, 1⟩, ⟨"happy", 4, 2⟩]).totalEntries ∧
    (∃ e ∈ ([⟨"happy", 3, 0⟩, ⟨"sad", 2, 1⟩, ⟨"happy", 4, 2⟩] : List MoodEntry),
      e.mood_type = ("sad", 1).1) :=
  ⟨(distribution_sound [⟨"happy", 3, 0⟩, ⟨"sad", 2, 1⟩, ⟨"happy", 4, 2⟩]).1,
   (distribution_sound [⟨"happy", 3, 0⟩, ⟨"sad", 2, 1⟩, ⟨"happy", 4, 2⟩]).2
     ("sad", 1) (by decide)⟩

/-- Witness for C4: "happy" and "sad" tie at two entries each; the statistics
pick "happy", the category seen first in the input order. -/
theorem mostCommonMood_first_max_witness :
    (getMoodStats [⟨"happy", 3, 0⟩, ⟨"sad", 2, 1⟩, ⟨"sad", 5, 2⟩, ⟨"happy", 1, 3⟩]).mostCommonMood
        = "happy" ∧
    (∃ M : ℕ,
      ((getMoodStats [⟨"happy", 3, 0⟩, ⟨"sad", 2, 1⟩, ⟨"sad", 5, 2⟩,
          ⟨"happy", 1, 3⟩]).mostCommonMood, M)
        ∈ (getMoodStats [⟨"happy", 3, 0⟩, ⟨"sad", 2, 1⟩, ⟨"sad", 5, 2⟩,
            ⟨"happy", 1, 3⟩]).moodDistribution ∧
      (∀ p ∈ (getMoodStats [⟨"happy", 3, 0⟩, ⟨"sad", 2, 1⟩, ⟨"sad", 5, 2⟩,
          ⟨"happy", 1, 3⟩]).moodDistribution, p.2 ≤ M) ∧
      (([⟨"happy", 3, 0⟩, ⟨"sad", 2, 1⟩, ⟨"sad", 5, 2⟩,
          ⟨"happy", 1, 3⟩] : List MoodEntry).map (·.mood_type)).find?
          (fun m => decide ((([⟨"happy", 3, 0⟩, ⟨"sad", 2, 1⟩, ⟨"sad", 5, 2⟩,
              ⟨"happy", 1, 3⟩] : List MoodEntry).map (·.mood_type)).count m = M))
        = some (getMoodStats [⟨"happy", 3, 0⟩, ⟨"sad", 2, 1⟩, ⟨"sad", 5, 2⟩,
            ⟨"happy", 1, 3⟩]).mostCommonMood) :=
  ⟨by decide,
   mostCommonMood_first_max [⟨"happy", 3, 0⟩, ⟨"sad", 2, 1⟩, ⟨"sad", 5, 2⟩, ⟨"happy", 1, 3⟩]
     (by decide)⟩
